import Mathlib

/-!
# Verification of the barge-in capable playback engine (`utils/audio.py`)

A shallow embedding of the audio engine of the AI-Voice-Bot repository.
Audio samples are modelled as rational numbers (the Python code works on
`float32` arrays; linear interpolation and the control logic are exact, so
the rational model is faithful up to floating-point rounding, which none of
the verified properties depend on).  The two real-time device callbacks
(`_out_cb`, `_on_input`) are modelled as atomic transitions of a shared
`Session` state, and a session run is a fold of such transitions over an
arbitrary interleaving of device events.
-/

namespace AIVoiceBot

/-! ## Configuration constants (`config.py` and the fallbacks in `utils/audio.py`) -/

/-- `SR = 16000` — canonical sample rate (config.py). -/
def SR : Nat := 16000

/-- `BARGE_IN_ENABLED = True` (config.py). -/
def BARGE_IN_ENABLED : Bool := true

/-- `BARGE_IN_MIN_MS = 250` (config.py). -/
def MIN_MS : Nat := 250

/-- `BARGE_IN_START_GRACE_MS = 300` (config.py). -/
def GRACE_MS : Nat := 300

/-- `FRAME_MS = 20` (audio.py line 30). -/
def FRAME_MS : Nat := 20

/-- `IN_BLOCK = int(SR * FRAME_MS / 1000)` — samples per input frame. -/
def IN_BLOCK : Nat := SR * FRAME_MS / 1000

/-- `MIN_FRAMES = max(1, MIN_MS // FRAME_MS)` (audio.py line 32). -/
def MIN_FRAMES : Nat := max 1 (MIN_MS / FRAME_MS)

/-- `GRACE_FRAMES = max(0, GRACE_MS // FRAME_MS)` (audio.py line 33). -/
def GRACE_FRAMES : Nat := max 0 (GRACE_MS / FRAME_MS)

/-- `CHUNK = int(SR * 0.04)` — 40 ms playback chunk size (audio.py line 83). -/
def CHUNK : Nat := SR * 4 / 100

/-- Capacity of the playback FIFO: `queue.Queue(maxsize=32)` (audio.py line 77). -/
def QUEUE_CAP : Nat := 32

/-! ## The linear resampler (`_resample_linear`, audio.py lines 40–51) -/

/-- Python 3 `round`: round half to even (used in
`n_out = int(round(n_in * (out_sr / float(in_sr))))`). -/
def pyRound (q : ℚ) : ℤ :=
  if q - ⌊q⌋ < 1/2 then ⌊q⌋
  else if 1/2 < q - ⌊q⌋ then ⌊q⌋ + 1
  else if 2 ∣ ⌊q⌋ then ⌊q⌋ else ⌊q⌋ + 1

/-- `np.interp` at query position `p` over the integer grid `0, 1, …, n-1`
carrying the values `wav` (clamped to the last value past the end; only
called with `p ≥ 0`).  The source evaluates `np.interp(x_new, x_old, wav)`
with `x_old[j] = j/n_in` and `x_new[i] = i/n_out`; rescaling both grids by
`n_in` gives exactly this integer-grid form with `p = i*n_in/n_out`. -/
def interpAt (wav : List ℚ) (p : ℚ) : ℚ :=
  let j := (⌊p⌋).toNat
  if j + 1 < wav.length then
    wav.getD j 0 + (p - (j : ℚ)) * (wav.getD (j+1) 0 - wav.getD j 0)
  else
    wav.getD (wav.length - 1) 0

/-- `_resample_linear(wav, in_sr, out_sr)` (audio.py lines 40–51):
identity when the rates agree or the buffer is empty; otherwise
`n_out = round(n_in * out_sr/in_sr)` samples of linear interpolation over
uniformly spaced query points (empty if `n_out ≤ 0`). -/
def _resample_linear (wav : List ℚ) (in_sr out_sr : Nat) : List ℚ :=
  if in_sr = out_sr ∨ wav.length = 0 then wav
  else
    let n_in : Nat := wav.length
    let n_out : ℤ := pyRound ((n_in : ℚ) * ((out_sr : ℚ) / (in_sr : ℚ)))
    if n_out ≤ 0 then []
    else (List.range n_out.toNat).map fun (i : Nat) =>
      interpAt wav ((i : ℚ) * (n_in : ℚ) / (n_out : ℚ))

/-! ## Chunking and the enqueue phase (audio.py lines 77–86) -/

/-- The chunks produced by `for i in range(0, len(wav), CHUNK): wav[i:i+CHUNK]`:
the loop runs once per start offset `i*k` below `len(wav)`, i.e.
`⌈len/k⌉` times, and the slice `wav[i:i+CHUNK]` is `take k` after `drop i*k`. -/
def chunksOf (k : Nat) (l : List ℚ) : List (List ℚ) :=
  (List.range ((l.length + k - 1) / k)).map fun i => (l.drop (i * k)).take k

/-- Number of `out_q.put` calls performed by the enqueue phase:
one per chunk plus one for the `None` sentinel (audio.py lines 84–86). -/
def enqueuePuts (wav : List ℚ) : Nat := (chunksOf CHUNK wav).length + 1

/-- Whether the enqueue phase blocks forever: the puts run before the
watcher thread or the output stream is started, so nothing consumes the
FIFO and the 33rd `put` on the capacity-32 queue never returns. -/
def enqueueBlocks (wav : List ℚ) : Bool := decide (QUEUE_CAP < enqueuePuts wav)

theorem chunksOf_length (k : Nat) (l : List ℚ) :
    (chunksOf k l).length = (l.length + k - 1) / k := by
  simp [chunksOf]

theorem pyRound_intCast (n : ℤ) : pyRound (n : ℚ) = n := by
  unfold pyRound
  rw [Int.floor_intCast, if_pos]
  rw [sub_self]
  norm_num

/-! ## The shared session state (audio.py lines 77–162)

`stop`, `barged`, `playback_done` are the three `threading.Event` flags of
`play_with_barge_in`.  `outDone` / `inDone` record that the corresponding
callback chain has been terminated via `sd.CallbackStop` (the audio backend
stops invoking a callback once it raised).  `speech_frames` / `seen_frames`
are the monitor's `nonlocal` counters.  The playback FIFO holds the
chunks, with `none` as the terminal sentinel. -/

structure Session where
  queue : List (Option (List ℚ))
  stop : Bool
  barged : Bool
  playback_done : Bool
  outDone : Bool
  inDone : Bool
  speech_frames : Nat
  seen_frames : Nat
deriving DecidableEq, Repr

/-- Fresh per-invocation state: flags clear, counters zero, FIFO holding the
40 ms chunks of the canonical buffer followed by the `None` sentinel
(audio.py lines 77–86, 116–117). -/
def initSession (wav : List ℚ) : Session :=
  { queue := (chunksOf CHUNK wav).map some ++ [none]
    stop := false
    barged := false
    playback_done := false
    outDone := false
    inDone := false
    speech_frames := 0
    seen_frames := 0 }

/-- One invocation of the output callback `_out_cb` (audio.py lines 88–111),
returning the samples written to the device and the successor state.
`status` is the device's underrun/overrun report: the source reads
`if status: pass`, so it is ignored.  If the chain already terminated the
device no longer invokes the callback (identity).  Stopping paths write
silence; a short final chunk is zero-padded to the requested frame count. -/
def _out_cb (frames : Nat) (status : Bool) (s : Session) : List ℚ × Session :=
  if s.outDone then (List.replicate frames 0, s)
  else if s.stop then
    (List.replicate frames 0, { s with outDone := true })
  else
    match s.queue with
    | [] =>
      (List.replicate frames 0, { s with playback_done := true, outDone := true })
    | none :: rest =>
      (List.replicate frames 0, { s with queue := rest, playback_done := true, outDone := true })
    | some c :: rest =>
      if c.length < frames then
        (c ++ List.replicate (frames - c.length) 0, { s with queue := rest })
      else
        (c.take frames, { s with queue := rest })

/-- One invocation of the input callback `_on_input` (audio.py lines 119–140)
on a frame the voice-activity classifier labels `ok`.  Parameterised over
`grace` (`GRACE_FRAMES`) and `minf` (`MIN_FRAMES`) exactly as the source
reads those module constants. -/
def _on_input (grace minf : Nat) (ok : Bool) (s : Session) : Session :=
  if s.inDone then s
  else if s.stop then { s with inDone := true }
  else
    let seen := s.seen_frames + 1
    if seen ≤ grace then { s with seen_frames := seen }
    else if ok then
      let sp := s.speech_frames + 1
      if minf ≤ sp ∧ s.barged = false then
        { s with seen_frames := seen, speech_frames := sp,
                 barged := true, stop := true, inDone := true }
      else
        { s with seen_frames := seen, speech_frames := sp }
    else
      { s with seen_frames := seen, speech_frames := 0 }

/-- A device event: an output-callback invocation (with requested frame
count and underrun status) or an input-callback invocation (with the
classifier's verdict for the captured frame). -/
inductive Ev where
  | out (frames : Nat) (status : Bool)
  | inp (ok : Bool)
deriving DecidableEq, Repr

/-- Effect of one device event on the shared state. -/
def stepEv (grace minf : Nat) (s : Session) : Ev → Session
  | .out f st => (_out_cb f st s).2
  | .inp ok => _on_input grace minf ok s

/-- A session run: fold of an arbitrary interleaving of device events
(the two callbacks are independently clocked). -/
def runSession (grace minf : Nat) (s : Session) (evs : List Ev) : Session :=
  evs.foldl (stepEv grace minf) s

/-- The coordinator's teardown after its wait loop exits:
`stop_flag.set()` (audio.py line 158). -/
def coordFinalize (s : Session) : Session := { s with stop := true }

/-- The monitor side alone: the input-callback state machine run over the
classifier verdicts of successive captured frames, from a fresh state. -/
def runMonitor (grace minf : Nat) (frames : List Bool) : Session :=
  runSession grace minf (initSession []) (frames.map Ev.inp)

/-! ## The top-level entry point (`play_with_barge_in`, audio.py lines 61–162) -/

/-- Device-open outcomes for the two streams of a session. -/
structure Devices where
  outputOpenOk : Bool
  inputOpenOk : Bool
deriving DecidableEq, Repr

/-- What a completed invocation did. -/
inductive Outcome where
  /-- The degradation path `_simple_play` (audio.py lines 53–59, 67–69):
  blocking playback of the given whole buffer, no interruption path. -/
  | simplePlayed (samples : List ℚ)
  /-- A barge-in session ran and returned `barged.is_set()`. -/
  | sessionDone (returned : Bool)
deriving DecidableEq, Repr

/-- The boolean the caller receives. -/
def Outcome.retVal : Outcome → Bool
  | simplePlayed _ => false
  | sessionDone b => b

/-- The mono canonical buffer: `if rate != SR: wav = _resample_linear(wav, rate, SR)`
(audio.py lines 56–57 and 74–75). -/
def canonical (wav : List ℚ) (rate : Nat) : List ℚ :=
  if rate ≠ SR then _resample_linear wav rate SR else wav

/-- Events still delivered when the input stream never opened: the monitor
thread died alone, so no input callback ever fires. -/
def dropInputEvents (evs : List Ev) : List Ev :=
  evs.filter fun e => match e with
    | .inp _ => false
    | .out _ _ => true

/-- `play_with_barge_in` (audio.py lines 61–162), for a decoded mono file
`(wav, rate)`, given the capability flags, the device-open outcomes and a
device event interleaving.  `none` models non-termination (the blocking
enqueue phase, audio.py lines 84–86); `Except.error` models an exception
propagating to the caller (the `sd.OutputStream` constructor at line 151
runs in the calling thread with no handler); an input-stream failure kills
only the daemon watcher thread (line 142 runs inside `mic_watch`), so the
session proceeds with no input events.  On the session path the value
returned is `barged.is_set()` read after the coordinator's final
`stop_flag.set()` (lines 158–162). -/
def play_with_barge_in (wav : List ℚ) (rate : Nat) (enable_barge_in HAVE_VAD : Bool)
    (dev : Devices) (evs : List Ev) : Option (Except Unit Outcome) :=
  if enable_barge_in = false ∨ BARGE_IN_ENABLED = false ∨ HAVE_VAD = false then
    some (.ok (.simplePlayed (canonical wav rate)))
  else
    let w := canonical wav rate
    if enqueueBlocks w then none
    else if dev.outputOpenOk = false then some (.error ())
    else
      let evs' := if dev.inputOpenOk then evs else dropInputEvents evs
      some (.ok (.sessionDone
        (coordFinalize (runSession GRACE_FRAMES MIN_FRAMES (initSession w) evs')).barged))

/-! ## Flag lemmas for the two callbacks -/

theorem outCb_barged (f : Nat) (st : Bool) (s : Session) :
    ((_out_cb f st s).2).barged = s.barged := by
  unfold _out_cb
  split
  · rfl
  · split
    · rfl
    · split <;> first | rfl | (split <;> rfl)

theorem outCb_stop (f : Nat) (st : Bool) (s : Session) :
    ((_out_cb f st s).2).stop = s.stop := by
  unfold _out_cb
  split
  · rfl
  · split
    · rfl
    · split <;> first | rfl | (split <;> rfl)

theorem onInput_stop_mono (grace minf : Nat) (ok : Bool) (s : Session)
    (h : s.stop = true) : (_on_input grace minf ok s).stop = true := by
  simp only [_on_input]
  repeat' split
  all_goals simp_all


theorem onInput_barged_mono (grace minf : Nat) (ok : Bool) (s : Session)
    (h : s.barged = true) : (_on_input grace minf ok s).barged = true := by
  simp only [_on_input]
  repeat' split
  all_goals simp_all


theorem onInput_barged_imp_stop (grace minf : Nat) (ok : Bool) (s : Session)
    (h : s.barged = true → s.stop = true) :
    (_on_input grace minf ok s).barged = true → (_on_input grace minf ok s).stop = true := by
  simp only [_on_input]
  repeat' split
  all_goals simp_all


theorem stepEv_stop_mono (grace minf : Nat) (s : Session) (e : Ev)
    (h : s.stop = true) : (stepEv grace minf s e).stop = true := by
  cases e with
  | out f st => rw [stepEv, outCb_stop]; exact h
  | inp ok => exact onInput_stop_mono grace minf ok s h

theorem stepEv_barged_mono (grace minf : Nat) (s : Session) (e : Ev)
    (h : s.barged = true) : (stepEv grace minf s e).barged = true := by
  cases e with
  | out f st => rw [stepEv, outCb_barged]; exact h
  | inp ok => exact onInput_barged_mono grace minf ok s h

theorem stepEv_barged_imp_stop (grace minf : Nat) (s : Session) (e : Ev)
    (h : s.barged = true → s.stop = true) :
    (stepEv grace minf s e).barged = true → (stepEv grace minf s e).stop = true := by
  cases e with
  | out f st => rw [stepEv, outCb_stop, outCb_barged]; exact h
  | inp ok => exact onInput_barged_imp_stop grace minf ok s h

/-! ## Run-level flag lemmas -/

theorem runSession_cons (grace minf : Nat) (s : Session) (e : Ev) (evs : List Ev) :
    runSession grace minf s (e :: evs) = runSession grace minf (stepEv grace minf s e) evs := by
  rfl

theorem runSession_append (grace minf : Nat) (s : Session) (l₁ l₂ : List Ev) :
    runSession grace minf s (l₁ ++ l₂) = runSession grace minf (runSession grace minf s l₁) l₂ := by
  simp [runSession]

theorem runSession_stop_mono (grace minf : Nat) (evs : List Ev) :
    ∀ s : Session, s.stop = true → (runSession grace minf s evs).stop = true := by
  induction evs with
  | nil => intro s h; exact h
  | cons e rest ih =>
    intro s h
    rw [runSession_cons]
    exact ih _ (stepEv_stop_mono grace minf s e h)

theorem runSession_barged_mono (grace minf : Nat) (evs : List Ev) :
    ∀ s : Session, s.barged = true → (runSession grace minf s evs).barged = true := by
  induction evs with
  | nil => intro s h; exact h
  | cons e rest ih =>
    intro s h
    rw [runSession_cons]
    exact ih _ (stepEv_barged_mono grace minf s e h)

theorem runSession_barged_imp_stop (grace minf : Nat) (evs : List Ev) :
    ∀ s : Session, (s.barged = true → s.stop = true) →
      (runSession grace minf s evs).barged = true → (runSession grace minf s evs).stop = true := by
  induction evs with
  | nil => intro s h; exact h
  | cons e rest ih =>
    intro s h
    rw [runSession_cons]
    exact ih _ (stepEv_barged_imp_stop grace minf s e h)

/-! ## Claims C6, C7, C8 -/

/-- *C6*: In every reachable state of a session, the ControlState invariants
hold: `barged` implies `stop` (the two flags are set together from the
monitor's perspective), and both `stop` and `barged` are monotonic — once
set true, no operation of the monitor (`_on_input`), the streamer
(`_out_cb`), or the coordinator (`coordFinalize`) ever resets them to
false. -/
theorem C6_control_state_invariants (grace minf : Nat) (s : Session) (evs : List Ev)
    (hbs : s.barged = true → s.stop = true) :
    ((runSession grace minf s evs).barged = true → (runSession grace minf s evs).stop = true) ∧
    (s.stop = true → (runSession grace minf s evs).stop = true) ∧
    (s.barged = true → (runSession grace minf s evs).barged = true) ∧
    (coordFinalize (runSession grace minf s evs)).stop = true ∧
    (coordFinalize (runSession grace minf s evs)).barged = (runSession grace minf s evs).barged :=
  ⟨runSession_barged_imp_stop grace minf evs s hbs,
   runSession_stop_mono grace minf evs s,
   runSession_barged_mono grace minf evs s,
   rfl, rfl⟩

theorem C6_witness :
    ((initSession []).barged = true → (initSession []).stop = true) ∧
    (((runSession 15 12 (initSession []) [Ev.inp true, Ev.out 640 false]).barged = true →
        (runSession 15 12 (initSession []) [Ev.inp true, Ev.out 640 false]).stop = true) ∧
      ((initSession []).stop = true →
        (runSession 15 12 (initSession []) [Ev.inp true, Ev.out 640 false]).stop = true) ∧
      ((initSession []).barged = true →
        (runSession 15 12 (initSession []) [Ev.inp true, Ev.out 640 false]).barged = true) ∧
      (coordFinalize (runSession 15 12 (initSession []) [Ev.inp true, Ev.out 640 false])).stop = true ∧
      (coordFinalize (runSession 15 12 (initSession []) [Ev.inp true, Ev.out 640 false])).barged
        = (runSession 15 12 (initSession []) [Ev.inp true, Ev.out 640 false]).barged) :=
  ⟨by decide,
   C6_control_state_invariants 15 12 (initSession []) [Ev.inp true, Ev.out 640 false] (by decide)⟩

/-- *C7*: Once the stop flag is set by either side, no further audio samples
are written to the output device: the very next invocation of the output
callback observes `stop`, writes silence, leaves the FIFO untouched, and
terminates the callback chain. -/
theorem C7_stop_silences_next_output (frames : Nat) (status : Bool) (s : Session)
    (h : s.stop = true) :
    (_out_cb frames status s).1 = List.replicate frames 0 ∧
    (_out_cb frames status s).2.outDone = true ∧
    (_out_cb frames status s).2.queue = s.queue := by
  rcases Bool.eq_false_or_eq_true s.outDone with hd | hd <;>
    simp [_out_cb, hd, h]

theorem C7_witness :
    (coordFinalize (initSession [])).stop = true ∧
    ((_out_cb 640 false (coordFinalize (initSession []))).1 = List.replicate 640 0 ∧
      (_out_cb 640 false (coordFinalize (initSession []))).2.outDone = true ∧
      (_out_cb 640 false (coordFinalize (initSession []))).2.queue
        = (coordFinalize (initSession [])).queue) :=
  ⟨by decide, C7_stop_silences_next_output 640 false (coordFinalize (initSession [])) (by decide)⟩

/-- *C8*: A device-reported buffer underrun (`status`) arriving on a
non-terminal output-callback invocation — one where playback has not been
stopped and a real chunk is still queued ahead of the sentinel — is
tolerated silently: the callback's result is identical with and without
the underrun report, and it continues the playback stream (the chain is
not terminated and `playback_done` is not set) rather than aborting it. -/
theorem C8_underrun_tolerated (frames : Nat) (s : Session) (c : List ℚ)
    (rest : List (Option (List ℚ)))
    (hq : s.queue = some c :: rest) (hs : s.stop = false) (hd : s.outDone = false) :
    _out_cb frames true s = _out_cb frames false s ∧
    (_out_cb frames true s).2.outDone = false ∧
    (_out_cb frames true s).2.playback_done = s.playback_done := by
  refine ⟨rfl, ?_, ?_⟩ <;>
  · unfold _out_cb
    rw [hd, hs, hq]
    simp only [Bool.false_eq_true, if_false]
    split <;> exact hd ▸ rfl

theorem C8_witness :
    ((initSession [(1:ℚ)]).queue = some [(1:ℚ)] :: [none] ∧
      (initSession [(1:ℚ)]).stop = false ∧
      (initSession [(1:ℚ)]).outDone = false) ∧
    (_out_cb 640 true (initSession [(1:ℚ)]) = _out_cb 640 false (initSession [(1:ℚ)]) ∧
      (_out_cb 640 true (initSession [(1:ℚ)])).2.outDone = false ∧
      (_out_cb 640 true (initSession [(1:ℚ)])).2.playback_done
        = (initSession [(1:ℚ)]).playback_done) :=
  ⟨⟨by decide, rfl, rfl⟩,
   C8_underrun_tolerated 640 (initSession [(1:ℚ)]) [(1:ℚ)] [none] (by decide) rfl rfl⟩

/-! ## Claims C2, C3, C5 -/

/-- *C2* (code bug): the claim asserts the chunk-enqueue phase terminates for
every buffer, including buffers of more than 32 chunks.  In the source the
blocking `out_q.put` calls run before the watcher thread or the output
stream exists, so nothing consumes the capacity-32 FIFO: a 3.0 s buffer at
16 kHz (48000 samples, the spec's own concrete scenario) needs 75 chunk
puts plus the sentinel, and the 33rd put blocks forever.  This theorem
evaluates the model at that failing input. -/
theorem C2_enqueue_deadlocks_on_3s_buffer :
    enqueuePuts (List.replicate 48000 (0:ℚ)) = 76 ∧
    enqueueBlocks (List.replicate 48000 (0:ℚ)) = true ∧
    play_with_barge_in (List.replicate 48000 (0:ℚ)) 16000 true true ⟨true, true⟩ [] = none := by
  have h1 : enqueuePuts (List.replicate 48000 (0:ℚ)) = 76 := by
    rw [enqueuePuts, chunksOf_length, List.length_replicate]
    decide
  have h2 : enqueueBlocks (List.replicate 48000 (0:ℚ)) = true := by
    rw [enqueueBlocks, h1]
    decide
  refine ⟨h1, h2, ?_⟩
  have hc : canonical (List.replicate 48000 (0:ℚ)) 16000 = List.replicate 48000 (0:ℚ) := by
    rw [canonical, if_neg]
    simp [SR]
  rw [play_with_barge_in, if_neg (by simp [BARGE_IN_ENABLED])]
  simp only [hc, h2, if_true]

/-- *C3*: If barge-in is disabled by the caller flag, by the global
capability flag, or because the voice-activity classifier library is
unavailable, `play_with_barge_in` performs simple blocking playback of the
whole (canonicalised) buffer with no interruption path and returns `false`;
the path raises nothing and runs no session when the classifier capability
is absent. -/
theorem C3_disabled_degrades_to_simple_play (wav : List ℚ) (rate : Nat)
    (enable haveVad : Bool) (dev : Devices) (evs : List Ev)
    (h : enable = false ∨ BARGE_IN_ENABLED = false ∨ haveVad = false) :
    play_with_barge_in wav rate enable haveVad dev evs
      = some (.ok (.simplePlayed (canonical wav rate))) ∧
    (Outcome.simplePlayed (canonical wav rate)).retVal = false := by
  constructor
  · unfold play_with_barge_in
    rw [if_pos h]
  · rfl

theorem C3_witness :
    (true = false ∨ BARGE_IN_ENABLED = false ∨ false = false) ∧
    (play_with_barge_in [(1:ℚ)] 16000 true false ⟨true, true⟩ []
        = some (.ok (.simplePlayed (canonical [(1:ℚ)] 16000))) ∧
      (Outcome.simplePlayed (canonical [(1:ℚ)] 16000)).retVal = false) :=
  ⟨Or.inr (Or.inr rfl),
   C3_disabled_degrades_to_simple_play [(1:ℚ)] 16000 true false ⟨true, true⟩ []
     (Or.inr (Or.inr rfl))⟩

/-- *C5* (counterexample): the claim states that with a minimum
sustained-speech duration of 250 ms and 20 ms frames, `min_frames` is 13.
The source computes `MIN_FRAMES = max(1, 250 // 20) = 12` (floor division),
so the claim is false. -/
theorem C5_counterexample : ¬ MIN_FRAMES = 13 := by decide

/-- *C5* (amended): with a minimum sustained-speech duration of 250 ms and
20 ms frames, `MIN_FRAMES` is 12; with grace = 300 ms (15 frames) and
speech injected from frame 20 (frames 0–19 silent, then 20 consecutive
speech frames), `barged` and `stop` become true and the monitor halts while
processing its 32nd frame, i.e. the stop is observed at
(20 + 12) × 20 ms = 640 ms into playback. -/
theorem C5_amended_scenario :
    MIN_FRAMES = 12 ∧
    (runMonitor GRACE_FRAMES MIN_FRAMES
        (List.replicate 20 false ++ List.replicate 20 true)).barged = true ∧
    (runMonitor GRACE_FRAMES MIN_FRAMES
        (List.replicate 20 false ++ List.replicate 20 true)).stop = true ∧
    (runMonitor GRACE_FRAMES MIN_FRAMES
        (List.replicate 20 false ++ List.replicate 20 true)).seen_frames = 32 ∧
    (20 + MIN_FRAMES) * FRAME_MS = 640 := by
  decide

/-! ## Claim C4 -/

theorem onInput_all_grace_aux (grace minf : Nat) :
    ∀ (frames : List Bool) (n : Nat),
      (∀ i (h : i < frames.length), frames.get ⟨i, h⟩ = true → n + i + 1 ≤ grace) →
      ∀ s : Session, s.stop = false → s.barged = false → s.inDone = false →
        s.speech_frames = 0 → s.seen_frames = n →
        ∀ k, (List.foldl (fun st ok => _on_input grace minf ok st) s (frames.take k)).barged
          = false := by
  intro frames
  induction frames with
  | nil =>
    intro n _ s _ hb _ _ _ k
    simp only [List.take_nil, List.foldl_nil]
    exact hb
  | cons ok rest ih =>
    intro n hsp s hstop hb hd hspf hseen k
    cases k with
    | zero =>
      simp only [List.take_zero, List.foldl_nil]
      exact hb
    | succ k =>
      rw [List.take_succ_cons, List.foldl_cons]
      have hstep : _on_input grace minf ok s
          = { s with seen_frames := n + 1,
                     speech_frames := if n + 1 ≤ grace then s.speech_frames else 0 } := by
        rw [_on_input, if_neg (by rw [hd]; exact Bool.false_ne_true),
            if_neg (by rw [hstop]; exact Bool.false_ne_true)]
        simp only [hseen]
        by_cases hg : n + 1 ≤ grace
        · rw [if_pos hg, if_pos hg]
        · rw [if_neg hg, if_neg hg]
          have hok : ok = false := by
            by_contra hc
            have := hsp 0 (by simp) (by simpa using Bool.not_eq_false ok |>.mp hc)
            omega
          rw [hok]
          simp
      rw [hstep]
      exact ih (n + 1)
        (fun i h hi => by
          have := hsp (i + 1) (by simpa using Nat.succ_lt_succ h) (by simpa using hi)
          omega)
        { s with seen_frames := n + 1,
                 speech_frames := if n + 1 ≤ grace then s.speech_frames else 0 }
        hstop hb hd (by by_cases hg : n + 1 ≤ grace <;> simp [hg, hspf]) rfl k

/-- *C4*: For every sequence of captured microphone frames in which all
speech-classified frames occur while `seen_frames ≤ grace_frames` (the
frame at 0-based position `i` is observed with `seen_frames = i + 1`), the
monitor never sets `barged` — at every point of the run the flag is still
false — regardless of how long the consecutive speech run within the grace
window is. -/
theorem C4_grace_window_never_triggers (grace minf : Nat) (frames : List Bool)
    (hsp : ∀ i (h : i < frames.length), frames.get ⟨i, h⟩ = true → i + 1 ≤ grace) :
    ∀ k, (runMonitor grace minf (frames.take k)).barged = false := by
  intro k
  have hfold : runMonitor grace minf (frames.take k)
      = List.foldl (fun st ok => _on_input grace minf ok st) (initSession [])
          (frames.take k) := by
    rw [runMonitor, runSession, List.foldl_map]
    rfl
  rw [hfold]
  exact onInput_all_grace_aux grace minf frames 0
    (fun i h hi => by simpa using hsp i h hi)
    (initSession []) rfl rfl rfl rfl rfl k

theorem C4_witness :
    (∀ i (h : i < (List.replicate 15 true ++ List.replicate 25 false).length),
      (List.replicate 15 true ++ List.replicate 25 false).get ⟨i, h⟩ = true → i + 1 ≤ 15) ∧
    (runMonitor 15 12 ((List.replicate 15 true ++ List.replicate 25 false).take 40)).barged
      = false :=
  ⟨by decide, C4_grace_window_never_triggers 15 12
    (List.replicate 15 true ++ List.replicate 25 false) (by decide) 40⟩

/-! ## Claim C9 -/

theorem runSession_dropInput_barged (grace minf : Nat) :
    ∀ (evs : List Ev) (s : Session),
      (runSession grace minf s (dropInputEvents evs)).barged = s.barged := by
  intro evs
  induction evs with
  | nil => intro s; rfl
  | cons e rest ih =>
    intro s
    cases e with
    | out f st =>
      have hcons : dropInputEvents (Ev.out f st :: rest)
          = Ev.out f st :: dropInputEvents rest := by
        simp [dropInputEvents, List.filter_cons]
      rw [hcons, runSession_cons]
      rw [show stepEv grace minf s (Ev.out f st) = (_out_cb f st s).2 from rfl]
      rw [ih, outCb_barged]
    | inp ok =>
      have hcons : dropInputEvents (Ev.inp ok :: rest) = dropInputEvents rest := by
        simp [dropInputEvents, List.filter_cons]
      rw [hcons, ih]

/-- *C9* (counterexample): the claim says an output-device open failure
after the session has started makes `play_with_barge_in` return `false`
rather than raising.  In the source the `sd.OutputStream` constructor at
line 151 runs in the calling thread with no `try`/`except`, so its failure
propagates as an exception to the caller instead of producing `false`. -/
theorem C9_counterexample :
    play_with_barge_in [(1:ℚ)] 16000 true true ⟨false, true⟩ [] = some (.error ()) ∧
    play_with_barge_in [(1:ℚ)] 16000 true true ⟨false, true⟩ []
      ≠ some (.ok (.sessionDone false)) := by
  have h1 : play_with_barge_in [(1:ℚ)] 16000 true true ⟨false, true⟩ []
      = some (.error ()) := rfl
  refine ⟨h1, ?_⟩
  rw [h1]
  simp

/-- *C9* (amended): an input-device open failure after the session has
started does not raise to the caller: the watcher thread dies in isolation,
the session proceeds with no input callbacks, and `play_with_barge_in`
returns `false`.  An output-device open failure, by contrast, propagates
an exception to the caller rather than returning `false`. -/
theorem C9_amended_device_failures (wav : List ℚ) (rate : Nat) (evs : List Ev)
    (hstart : enqueueBlocks (canonical wav rate) = false) :
    play_with_barge_in wav rate true true ⟨true, false⟩ evs
      = some (.ok (.sessionDone false)) ∧
    play_with_barge_in wav rate true true ⟨false, true⟩ evs = some (.error ()) := by
  constructor
  · rw [play_with_barge_in, if_neg (by simp [BARGE_IN_ENABLED])]
    simp only [hstart, Bool.false_eq_true, if_false, coordFinalize]
    rw [runSession_dropInput_barged]
    rfl
  · rw [play_with_barge_in, if_neg (by simp [BARGE_IN_ENABLED])]
    simp only [hstart, Bool.false_eq_true, if_false]
    rfl

theorem C9_amended_witness :
    enqueueBlocks (canonical [(1:ℚ)] 16000) = false ∧
    (play_with_barge_in [(1:ℚ)] 16000 true true ⟨true, false⟩ [Ev.inp true, Ev.out 640 false]
        = some (.ok (.sessionDone false)) ∧
      play_with_barge_in [(1:ℚ)] 16000 true true ⟨false, true⟩ [Ev.inp true, Ev.out 640 false]
        = some (.error ())) :=
  ⟨by decide,
   C9_amended_device_failures [(1:ℚ)] 16000 [Ev.inp true, Ev.out 640 false] (by decide)⟩

/-! ## Claim C1 -/

/-- The state of a session over the canonical buffer `wav` after the first
`i` device events of the interleaving `evs` have been processed. -/
def sessionStates (wav : List ℚ) (evs : List Ev) (i : Nat) : Session :=
  runSession GRACE_FRAMES MIN_FRAMES (initSession wav) (evs.take i)

theorem exists_first_flip (grace minf : Nat) :
    ∀ (evs : List Ev) (s : Session), s.barged = false →
      (runSession grace minf s evs).barged = true →
      ∃ i, i < evs.length ∧
        (runSession grace minf s (evs.take i)).barged = false ∧
        (runSession grace minf s (evs.take (i+1))).barged = true := by
  intro evs
  induction evs with
  | nil =>
    intro s h0 h1
    rw [show runSession grace minf s [] = s from rfl, h0] at h1
    cases h1
  | cons e rest ih =>
    intro s h0 h1
    rw [runSession_cons] at h1
    by_cases hb : (stepEv grace minf s e).barged = true
    · refine ⟨0, by simp, ?_, ?_⟩
      · exact h0
      · rw [List.take_succ_cons, List.take_zero, runSession_cons]
        exact hb
    · obtain ⟨i, hlen, hf, ht⟩ := ih (stepEv grace minf s e) (Bool.not_eq_true _ ▸ hb) h1
      refine ⟨i + 1, by simpa using Nat.succ_lt_succ hlen, ?_, ?_⟩
      · rw [List.take_succ_cons, runSession_cons]
        exact hf
      · rw [List.take_succ_cons, runSession_cons]
        exact ht

theorem flip_final (grace minf : Nat) (evs : List Ev) (s : Session) (i : Nat)
    (ht : (runSession grace minf s (evs.take (i+1))).barged = true) :
    (runSession grace minf s evs).barged = true := by
  have hsplit : evs = evs.take (i+1) ++ evs.drop (i+1) := (List.take_append_drop _ _).symm
  rw [hsplit, runSession_append]
  exact runSession_barged_mono grace minf _ _ ht

theorem stepEv_barged_flip (grace minf : Nat) (s : Session) (e : Ev)
    (h0 : s.barged = false) (h1 : (stepEv grace minf s e).barged = true) :
    e = Ev.inp true ∧ grace < s.seen_frames + 1 ∧ minf ≤ s.speech_frames + 1 ∧
      s.stop = false ∧ s.inDone = false := by
  cases e with
  | out f st =>
    rw [stepEv, outCb_barged, h0] at h1
    cases h1
  | inp ok =>
    have h2 : (_on_input grace minf ok s).barged = true := h1
    rw [_on_input] at h2
    by_cases hd : s.inDone = true
    · rw [if_pos hd, h0] at h2
      cases h2
    · rw [if_neg hd] at h2
      by_cases hst : s.stop = true
      · rw [if_pos hst] at h2
        have h3 : s.barged = true := h2
        rw [h0] at h3
        cases h3
      · rw [if_neg hst] at h2
        simp only [] at h2
        by_cases hg : s.seen_frames + 1 ≤ grace
        · rw [if_pos hg] at h2
          have h3 : s.barged = true := h2
          rw [h0] at h3
          cases h3
        · rw [if_neg hg] at h2
          cases ok with
          | false =>
            rw [if_neg Bool.false_ne_true] at h2
            have h3 : s.barged = true := h2
            rw [h0] at h3
            cases h3
          | true =>
            rw [if_pos rfl] at h2
            by_cases hm : minf ≤ s.speech_frames + 1 ∧ s.barged = false
            · exact ⟨rfl, by omega, hm.1, Bool.not_eq_true _ ▸ hst,
                Bool.not_eq_true _ ▸ hd⟩
            · rw [if_neg hm] at h2
              have h3 : s.barged = true := h2
              rw [h0] at h3
              cases h3

/-- *C1*: For every invocation of `play_with_barge_in` that starts a
barge-in session (interruption enabled and available, the enqueue phase
does not block, both devices open), the boolean returned is exactly the
final value of the `barged` flag; that flag is true if and only if some
step of the run flipped it — and every flipping step is an input-callback
invocation on a speech-classified frame past the grace window whose
consecutive speech run reaches `MIN_FRAMES` (sustained speech triggering a
barge-in).  When no such trigger occurs — playback completing naturally —
the returned value is false. -/
theorem C1_return_is_final_barged (wav : List ℚ) (rate : Nat) (dev : Devices)
    (evs : List Ev) (hstart : enqueueBlocks (canonical wav rate) = false)
    (hout : dev.outputOpenOk = true) (hin : dev.inputOpenOk = true) :
    play_with_barge_in wav rate true true dev evs
      = some (.ok (.sessionDone (sessionStates (canonical wav rate) evs evs.length).barged)) ∧
    ((sessionStates (canonical wav rate) evs evs.length).barged = true ↔
      ∃ i, i < evs.length ∧ (sessionStates (canonical wav rate) evs i).barged = false ∧
        (sessionStates (canonical wav rate) evs (i+1)).barged = true) ∧
    (∀ i, (sessionStates (canonical wav rate) evs i).barged = false →
      (sessionStates (canonical wav rate) evs (i+1)).barged = true →
      i < evs.length ∧ evs.getD i (Ev.out 0 false) = Ev.inp true ∧
      GRACE_FRAMES < (sessionStates (canonical wav rate) evs i).seen_frames + 1 ∧
      MIN_FRAMES ≤ (sessionStates (canonical wav rate) evs i).speech_frames + 1) := by
  obtain ⟨dout, din⟩ := dev
  simp only at hout hin
  subst hout
  subst hin
  refine ⟨?_, ?_, ?_⟩
  · rw [play_with_barge_in, if_neg (by simp [BARGE_IN_ENABLED])]
    simp only [hstart, Bool.false_eq_true, if_false, if_true, coordFinalize]
    rw [sessionStates, List.take_length]
    rfl
  · constructor
    · intro hfin
      rw [sessionStates, List.take_length] at hfin
      exact exists_first_flip GRACE_FRAMES MIN_FRAMES evs (initSession (canonical wav rate))
        rfl hfin
    · rintro ⟨i, _, _, ht⟩
      rw [sessionStates, List.take_length]
      exact flip_final GRACE_FRAMES MIN_FRAMES evs (initSession (canonical wav rate)) i ht
  · intro i hf ht
    have hlen : i < evs.length := by
      by_contra hc
      push_neg at hc
      rw [sessionStates, List.take_of_length_le hc] at hf
      rw [sessionStates, List.take_of_length_le (by omega)] at ht
      rw [hf] at ht
      cases ht
    have htake : evs.take (i+1) = evs.take i ++ [evs.getD i (Ev.out 0 false)] := by
      rw [List.take_succ, List.getElem?_eq_getElem hlen,
          List.getD_eq_getElem evs (Ev.out 0 false) hlen]
      rfl
    rw [sessionStates, htake, runSession_append] at ht
    rw [show runSession GRACE_FRAMES MIN_FRAMES
        (runSession GRACE_FRAMES MIN_FRAMES (initSession (canonical wav rate)) (evs.take i))
        [evs.getD i (Ev.out 0 false)]
      = stepEv GRACE_FRAMES MIN_FRAMES
          (runSession GRACE_FRAMES MIN_FRAMES (initSession (canonical wav rate)) (evs.take i))
          (evs.getD i (Ev.out 0 false)) from rfl] at ht
    have hc := stepEv_barged_flip GRACE_FRAMES MIN_FRAMES _ _ hf ht
    exact ⟨hlen, hc.1, hc.2.1, hc.2.2.1⟩

theorem C1_witness :
    (enqueueBlocks (canonical [(1:ℚ)] 16000) = false ∧
      (Devices.mk true true).outputOpenOk = true ∧ (Devices.mk true true).inputOpenOk = true) ∧
    play_with_barge_in [(1:ℚ)] 16000 true true ⟨true, true⟩ [Ev.out 640 false]
      = some (.ok (.sessionDone
          (sessionStates (canonical [(1:ℚ)] 16000) [Ev.out 640 false] 1).barged)) :=
  ⟨⟨by decide, rfl, rfl⟩,
   (C1_return_is_final_barged [(1:ℚ)] 16000 ⟨true, true⟩ [Ev.out 640 false]
     (by decide) rfl rfl).1⟩

/-! ## Claim C10 -/

theorem resample_length (wav : List ℚ) (in_sr out_sr : Nat)
    (h0 : wav ≠ []) (hne : in_sr ≠ out_sr) :
    (_resample_linear wav in_sr out_sr).length
      = (pyRound ((wav.length : ℚ) * ((out_sr : ℚ) / (in_sr : ℚ)))).toNat := by
  simp only [_resample_linear]
  rw [if_neg (not_or.mpr ⟨hne, fun h => h0 (List.length_eq_zero.mp h)⟩)]
  split
  · next hle => rw [Int.toNat_of_nonpos hle]; rfl
  · next hgt => rw [List.length_map, List.length_range]

theorem interpAt_zero (wav : List ℚ) : interpAt wav 0 = wav.getD 0 0 := by
  rw [interpAt]
  simp only [Int.floor_zero, Int.toNat_zero, Nat.cast_zero, sub_zero, zero_add]
  split
  · simp
  · next h =>
    match wav with
    | [] => rfl
    | a :: t =>
      have ht : t = [] := by
        have : t.length = 0 := by
          simp only [List.length_cons] at h
          omega
        exact List.length_eq_zero.mp this
      subst ht
      rfl

theorem interpAt_half_end (wav : List ℚ) (hlen : wav.length = 8000) :
    interpAt wav ((15999 : ℚ) / 2) = wav.getD 7999 0 := by
  have hfl : (⌊(15999 : ℚ) / 2⌋ : ℤ) = 7999 := by
    rw [Int.floor_eq_iff]
    constructor <;> norm_num
  rw [interpAt]
  simp only [hfl, hlen, show ((7999 : ℤ)).toNat = 7999 from rfl]
  rw [if_neg (by norm_num)]

/-- *C10*: For every non-empty input buffer whose rate differs from the
canonical rate, linear resampling produces exactly
`round(input_count × rate_ratio)` samples; in particular an 8000-sample
buffer resampled from 8 kHz to 16 kHz yields exactly 16000 samples, and
the first and last output samples equal the corresponding input endpoints
(hence match them within the 1e-3 interpolation tolerance). -/
theorem C10_resample_count_and_endpoints (wav : List ℚ) (in_sr out_sr : Nat)
    (h0 : wav ≠ []) (hne : in_sr ≠ out_sr) (hin : 0 < in_sr) (hout : 0 < out_sr) :
    ((_resample_linear wav in_sr out_sr).length
        = (pyRound ((wav.length : ℚ) * ((out_sr : ℚ) / (in_sr : ℚ)))).toNat) ∧
    (wav.length = 8000 → in_sr = 8000 → out_sr = 16000 →
      (_resample_linear wav in_sr out_sr).length = 16000 ∧
      (_resample_linear wav in_sr out_sr).getD 0 0 = wav.getD 0 0 ∧
      (_resample_linear wav in_sr out_sr).getD 15999 0 = wav.getD 7999 0 ∧
      |(_resample_linear wav in_sr out_sr).getD 0 0 - wav.getD 0 0| ≤ 1/1000 ∧
      |(_resample_linear wav in_sr out_sr).getD 15999 0 - wav.getD 7999 0| ≤ 1/1000) := by
  refine ⟨resample_length wav in_sr out_sr h0 hne, ?_⟩
  rintro hlen rfl rfl
  have hpr : pyRound ((wav.length : ℚ) * (((16000 : Nat) : ℚ) / ((8000 : Nat) : ℚ)))
      = 16000 := by
    have hq : ((wav.length : ℚ) * (((16000 : Nat) : ℚ) / ((8000 : Nat) : ℚ)))
        = ((16000 : ℤ) : ℚ) := by
      rw [hlen]
      push_cast
      norm_num
    rw [hq, pyRound_intCast]
  have hform : _resample_linear wav 8000 16000
      = (List.range 16000).map fun (i : Nat) =>
          interpAt wav ((i : ℚ) * (wav.length : ℚ) / (((16000 : ℤ)) : ℚ)) := by
    simp only [_resample_linear]
    rw [if_neg (not_or.mpr ⟨by decide, fun h => h0 (List.length_eq_zero.mp h)⟩)]
    rw [hpr, if_neg (by decide)]
    rfl
  have hgetD0 : (_resample_linear wav 8000 16000).getD 0 0 = wav.getD 0 0 := by
    rw [hform, List.getD_eq_getElem _ _ (by simp), List.getElem_map, List.getElem_range]
    have harg : ((0 : Nat) : ℚ) * (wav.length : ℚ) / (((16000 : ℤ)) : ℚ) = 0 := by
      norm_num
    rw [harg, interpAt_zero]
  have hgetDlast : (_resample_linear wav 8000 16000).getD 15999 0 = wav.getD 7999 0 := by
    rw [hform, List.getD_eq_getElem _ _ (by simp), List.getElem_map, List.getElem_range]
    have harg : ((15999 : Nat) : ℚ) * (wav.length : ℚ) / (((16000 : ℤ)) : ℚ)
        = (15999 : ℚ) / 2 := by
      rw [hlen]
      push_cast
      ring_nf
    rw [harg, interpAt_half_end wav hlen]
  refine ⟨?_, hgetD0, hgetDlast, ?_, ?_⟩
  · rw [hform, List.length_map, List.length_range]
  · rw [hgetD0, sub_self, abs_zero]
    norm_num
  · rw [hgetDlast, sub_self, abs_zero]
    norm_num

theorem C10_witness :
    ((List.replicate 8000 (1:ℚ)) ≠ [] ∧ (8000 : Nat) ≠ 16000 ∧
      0 < (8000 : Nat) ∧ 0 < (16000 : Nat) ∧ (List.replicate 8000 (1:ℚ)).length = 8000) ∧
    ((_resample_linear (List.replicate 8000 (1:ℚ)) 8000 16000).length = 16000 ∧
      (_resample_linear (List.replicate 8000 (1:ℚ)) 8000 16000).getD 0 0
        = (List.replicate 8000 (1:ℚ)).getD 0 0 ∧
      (_resample_linear (List.replicate 8000 (1:ℚ)) 8000 16000).getD 15999 0
        = (List.replicate 8000 (1:ℚ)).getD 7999 0) :=
  ⟨⟨List.ne_nil_of_length_pos (by rw [List.length_replicate]; decide),
    by decide, by decide, by decide, by rw [List.length_replicate]⟩,
   by
    have h := (C10_resample_count_and_endpoints (List.replicate 8000 (1:ℚ)) 8000 16000
      (List.ne_nil_of_length_pos (by rw [List.length_replicate]; decide))
      (by decide) (by decide) (by decide)).2 (by rw [List.length_replicate]) rfl rfl
    exact ⟨h.1, h.2.1, h.2.2.1⟩⟩

end AIVoiceBot
